import Mathlib

/-!
Shallow embedding of the MachineApps take-home repository:
* `RobotSim` — `exercises/gantry-pick-and-place/backend/robot_sim.py`
* `Palletizer` — `exercises/vision-palletizer/backend/palletizer/state_machine.py`
  and `grid.py`
* `Transforms` — `exercises/vision-palletizer/backend/transforms/coordinate.py`

Python floats are modelled as exact rationals (`ℚ`), Python ints as `ℤ`/`ℕ`
where the sign situation allows, and the wall-clock readings taken by
`time.perf_counter()` are passed in as explicit parameters.  Python raises
`ZeroDivisionError` on division by zero; in the embedding divisions are the
total `ℚ` division, and a separate predicate records whether every divisor
that the Python code evaluates is nonzero.
-/

namespace RobotSim

/-- Per-axis gripper state, from `GripperState` in `robot_sim.py`. -/
inductive GripperState where
  | OPEN
  | CLOSED
deriving DecidableEq, Repr

/-- The mutable state of `Robot` in `robot_sim.py`: current position,
home position, gripper flag, last motion timestamp, per-axis velocity and
per-axis symmetric limits. -/
structure Robot where
  current_position : List ℚ
  home_position : List ℚ
  gripper_state : GripperState
  last_motion_time : ℚ
  axis_speed : List ℚ
  robot_limits : List ℚ
deriving DecidableEq, Repr

/-- The freshly constructed robot of `Robot.__init__` with the default
arguments: at the origin, stationary, limits `[1000, 1000, 1000]`. -/
def robotInit : Robot :=
  { current_position := [0, 0, 0]
    home_position := [0, 0, 0]
    gripper_state := GripperState.OPEN
    last_motion_time := 0
    axis_speed := [0, 0, 0]
    robot_limits := [1000, 1000, 1000] }

/-- `[target_position[i] - self.current_position[i] for i in range(len(self.current_position))]`
(assuming, as everywhere in the file, that the two lists have equal length). -/
def delta (target current : List ℚ) : List ℚ :=
  List.zipWith (fun t c => t - c) target current

/-- Python `max(delta, key=abs)`: the first element of largest absolute
value (Python raises on an empty list; the embedding returns `0` there,
a case no claim exercises). -/
def maxByAbs : List ℚ → ℚ
  | [] => 0
  | x :: xs => xs.foldl (fun acc y => if |acc| < |y| then y else acc) x

/-- `Robot._plan_motion`: per-axis velocities giving every axis the same
motion duration `|dominant delta| / speed`. -/
def plan_motion (r : Robot) (target : List ℚ) (speed : ℚ) : List ℚ :=
  let d := delta target r.current_position
  let control_axis_distance := maxByAbs d
  let motion_time := |control_axis_distance| / speed
  d.map (fun i => i / motion_time)

/-- Both divisors evaluated by `Robot._plan_motion` are nonzero (Python
raises `ZeroDivisionError` exactly when this fails). -/
def plan_motion_divisors_nonzero (r : Robot) (target : List ℚ) (speed : ℚ) : Prop :=
  speed ≠ 0 ∧ |maxByAbs (delta target r.current_position)| / speed ≠ 0

instance (r : Robot) (target : List ℚ) (speed : ℚ) :
    Decidable (plan_motion_divisors_nonzero r target speed) := by
  unfold plan_motion_divisors_nonzero
  infer_instance

/-- `Robot._same_position`: every per-axis delta is zero. -/
def same_position (r : Robot) (target : List ℚ) : Bool :=
  (delta target r.current_position).all (fun i => decide (i = 0))

/-- `Robot._is_motion_completed`: the motion is complete unless some axis
still has a remaining delta whose strict sign agrees with the sign of its
velocity (`(j - pos > 0 < v) or (j - pos < 0 > v)` in the source). -/
def is_motion_completed (r : Robot) (target : List ℚ) : Bool :=
  ((target.zip r.current_position).zip r.axis_speed).all
    (fun p =>
      !(decide (p.1.1 - p.1.2 > 0) && decide (0 < p.2) ||
        decide (p.1.1 - p.1.2 < 0) && decide (0 > p.2)))

/-- The errors `Robot.move_to` can report (the source formats them as
strings; the embedding keeps them structured). -/
inductive MoveError where
  | speedOutOfLimits (speed : ℚ)
  | axisOutOfLimits (axis : ℕ) (value : ℚ)
deriving DecidableEq, Repr

/-- The axis-limit loop of `Robot.move_to`: the first axis `i` whose target
value `j` satisfies `j > limits[i] or j < -limits[i]`, with that value. -/
def axis_violation : List (ℚ × ℚ) → ℕ → Option (ℕ × ℚ)
  | [], _ => none
  | (j, lim) :: rest, i =>
      if j > lim ∨ j < -lim then some (i, j) else axis_violation rest (i + 1)

/-- The velocities in force for the integration step of `move_to`: freshly
planned when the robot is stationary, otherwise the velocities already
stored. -/
def planned_speeds (r : Robot) (target : List ℚ) (speed : ℚ) : List ℚ :=
  if r.axis_speed.all (fun v => decide (v = 0)) then plan_motion r target speed
  else r.axis_speed

/-- The value of `self.last_motion_time` read by the `delta_t` computation
of `move_to`: the current clock reading `t1` when the robot was stationary
(it was just overwritten), otherwise the stored timestamp. -/
def integration_start (r : Robot) (t1 : ℚ) : ℚ :=
  if r.axis_speed.all (fun v => decide (v = 0)) then t1 else r.last_motion_time

/-- The position after the integration step of `move_to`:
`current + delta_t * axis_speed` per axis, `delta_t = t1 - last_motion_time`. -/
def integrated_position (r : Robot) (target : List ℚ) (speed t1 : ℚ) : List ℚ :=
  List.zipWith (fun c v => c + (t1 - integration_start r t1) * v)
    r.current_position (planned_speeds r target speed)

/-- What one call to `Robot.move_to` returns (position, velocity, error)
together with the state the robot is left in. -/
structure MoveResult where
  position : List ℚ
  velocity : List ℚ
  error : Option MoveError
  robot : Robot
deriving DecidableEq, Repr

/-- `Robot.move_to(target_position, speed)`.  `t1` is the
`time.perf_counter()` reading taken at the top of the motion section and
`t2` the second reading stored back into `last_motion_time`. -/
def move_to (r : Robot) (target : List ℚ) (speed : ℚ) (t1 t2 : ℚ) : MoveResult :=
  if ¬(0 ≤ speed ∧ speed ≤ 100) then
    ⟨r.current_position, r.axis_speed, some (MoveError.speedOutOfLimits speed), r⟩
  else
    match axis_violation (target.zip r.robot_limits) 0 with
    | some (i, j) => ⟨r.current_position, r.axis_speed, some (MoveError.axisOutOfLimits i j), r⟩
    | none =>
      if same_position r target then ⟨r.current_position, r.axis_speed, none, r⟩
      else
        let r1 : Robot :=
          { r with
            current_position := integrated_position r target speed t1
            axis_speed := planned_speeds r target speed
            last_motion_time := t2 }
        if is_motion_completed r1 target then
          let r2 : Robot := { r1 with axis_speed := [0, 0, 0], current_position := target }
          ⟨r2.current_position, r2.axis_speed, none, r2⟩
        else
          ⟨r1.current_position, r1.axis_speed, none, r1⟩

end RobotSim

namespace Palletizer

/-- `PalletizerState` from `palletizer/state_machine.py` (the library's
state strings `"ready"`, `"Running_homing"`, … are identified with these
constructors through the `current_state` mapping of the source). -/
inductive PalletizerState where
  | IDLE
  | HOMING
  | PICKING
  | PLACING
  | FAULT
deriving DecidableEq, Repr

/-- The `TRANSITIONS` list of `palletizer/state_machine.py`:
`(trigger name, source state, destination state)` triples, in source
order. -/
def TRANSITIONS : List (String × PalletizerState × PalletizerState) :=
  [("start", PalletizerState.IDLE, PalletizerState.HOMING),
   ("finished_homing", PalletizerState.HOMING, PalletizerState.PICKING),
   ("finished_picking", PalletizerState.PICKING, PalletizerState.PLACING),
   ("finished_placing", PalletizerState.PLACING, PalletizerState.PICKING),
   ("cycle_complete", PalletizerState.PLACING, PalletizerState.IDLE),
   ("stop", PalletizerState.HOMING, PalletizerState.IDLE),
   ("stop", PalletizerState.PICKING, PalletizerState.IDLE),
   ("stop", PalletizerState.PLACING, PalletizerState.IDLE)]

/-- Firing a trigger: the destination of the first matching entry of
`TRANSITIONS`, `none` when the trigger is not enabled in the current
state. -/
def fire (s : PalletizerState) (t : String) : Option PalletizerState :=
  (TRANSITIONS.find? (fun tr => decide (tr.2.1 = s) && decide (tr.1 = t))).map
    (fun tr => tr.2.2)

/-- `PalletizerContext` from `palletizer/state_machine.py`, with its
source default values. -/
structure PalletizerContext where
  rows : ℤ := 2
  cols : ℤ := 2
  box_size_mm : ℚ × ℚ × ℚ := (100, 100, 50)
  pallet_origin_mm : ℚ × ℚ × ℚ := (400, -200, 100)
  current_box_index : ℤ := 0
  total_boxes : ℤ := 0
  pick_position : Option (ℚ × ℚ × ℚ) := none
  place_positions : List (ℚ × ℚ × ℚ) := []
  error_message : String := ""
deriving DecidableEq, Repr

/-- The context a fresh `PalletizerStateMachine` starts with. -/
def ctxInit : PalletizerContext := {}

/-- `PalletizerStateMachine.configure(rows, cols, box_size_mm,
pallet_origin_mm)`: rejected outside `IDLE`; otherwise overwrites the
grid parameters, sets `total_boxes`, resets the box index and clears
`place_positions`. -/
def configure (s : PalletizerState) (ctx : PalletizerContext) (rows cols : ℤ)
    (box_size_mm pallet_origin_mm : ℚ × ℚ × ℚ) : Bool × PalletizerContext :=
  if s ≠ PalletizerState.IDLE then (false, ctx)
  else
    (true,
     { ctx with
       rows := rows
       cols := cols
       box_size_mm := box_size_mm
       pallet_origin_mm := pallet_origin_mm
       total_boxes := rows * cols
       current_box_index := 0
       place_positions := [] })

/-- Modelled from the spec: `on_enter_placing` in
`palletizer/state_machine.py` raises `NotImplementedError`.  Per the spec
(§4.4) and the handler's own TODO, completing a placement increments the
box index and then fires `cycle_complete` when the grid is exhausted
(index has reached `rows*cols`), else `finished_placing`. -/
def place_complete_step (ctx : PalletizerContext) : String × PalletizerContext :=
  let ctx' := { ctx with current_box_index := ctx.current_box_index + 1 }
  (if ctx'.current_box_index ≥ ctx.rows * ctx.cols then "cycle_complete"
   else "finished_placing", ctx')

end Palletizer

namespace Grid

/-- Modelled from the spec: `calculate_place_positions` in
`palletizer/grid.py` raises `NotImplementedError`.  Per the spec (§4.3),
the sequence is row-major — index `k = row*cols + col` — and the position
for `(row, col)` is `origin + (col*(box_width+spacing),
row*(box_depth+spacing), 0)`, with constant z. -/
def calculate_place_positions (rows cols : ℕ) (box_size_mm : ℚ × ℚ × ℚ)
    (pallet_origin_mm : ℚ × ℚ × ℚ) (spacing_mm : ℚ) : List (ℚ × ℚ × ℚ) :=
  (List.range (rows * cols)).map (fun k =>
    (pallet_origin_mm.1 + (k % cols : ℕ) * (box_size_mm.1 + spacing_mm),
     pallet_origin_mm.2.1 + (k / cols : ℕ) * (box_size_mm.2.1 + spacing_mm),
     pallet_origin_mm.2.2))

end Grid

namespace Transforms

/-- Modelled from the spec: `camera_to_robot` in
`transforms/coordinate.py` raises `NotImplementedError`.  Per the spec
(§4.2), `to_robot_frame(p) = R·p + t` for the fixed deployment rotation
`R` and translation `t`. -/
def camera_to_robot (R : Matrix (Fin 3) (Fin 3) ℚ) (t p : Fin 3 → ℚ) : Fin 3 → ℚ :=
  R.mulVec p + t

/-- Modelled from the spec: `robot_to_camera` in
`transforms/coordinate.py` raises `NotImplementedError`.  Per the spec
(§4.2), `to_sensor_frame(p) = Rᵀ·(p − t)`. -/
def robot_to_camera (R : Matrix (Fin 3) (Fin 3) ℚ) (t p : Fin 3 → ℚ) : Fin 3 → ℚ :=
  R.transpose.mulVec (p - t)

end Transforms

namespace RobotSim

/-! Helper lemmas about the motion engine. -/

lemma foldl_maxabs_mem (xs : List ℚ) (acc : ℚ) :
    xs.foldl (fun a y => if |a| < |y| then y else a) acc = acc ∨
    xs.foldl (fun a y => if |a| < |y| then y else a) acc ∈ xs := by
  induction xs generalizing acc with
  | nil => exact Or.inl rfl
  | cons y ys ih =>
    simp only [List.foldl_cons]
    rcases ih (if |acc| < |y| then y else acc) with h | h
    · rw [h]
      by_cases hc : |acc| < |y|
      · rw [if_pos hc]; exact Or.inr (List.mem_cons_self _ _)
      · rw [if_neg hc]; exact Or.inl rfl
    · exact Or.inr (List.mem_cons_of_mem _ h)

lemma foldl_maxabs_le (xs : List ℚ) (acc : ℚ) :
    |acc| ≤ |xs.foldl (fun a y => if |a| < |y| then y else a) acc| ∧
    ∀ x ∈ xs, |x| ≤ |xs.foldl (fun a y => if |a| < |y| then y else a) acc| := by
  induction xs generalizing acc with
  | nil => exact ⟨le_refl _, by simp⟩
  | cons y ys ih =>
    simp only [List.foldl_cons]
    have step : |acc| ≤ |if |acc| < |y| then y else acc| ∧
        |y| ≤ |if |acc| < |y| then y else acc| := by
      by_cases hc : |acc| < |y|
      · rw [if_pos hc]; exact ⟨le_of_lt hc, le_refl _⟩
      · rw [if_neg hc]; exact ⟨le_refl _, le_of_not_lt hc⟩
    obtain ⟨h1, h2⟩ := ih (if |acc| < |y| then y else acc)
    refine ⟨le_trans step.1 h1, ?_⟩
    intro x hx
    rcases List.mem_cons.mp hx with rfl | hx
    · exact le_trans step.2 h1
    · exact h2 x hx

lemma maxByAbs_mem {l : List ℚ} (h : l ≠ []) : maxByAbs l ∈ l := by
  cases l with
  | nil => exact absurd rfl h
  | cons x xs =>
    rcases foldl_maxabs_mem xs x with h1 | h1
    · rw [maxByAbs, h1]; exact List.mem_cons_self _ _
    · exact List.mem_cons_of_mem _ h1

lemma maxByAbs_abs_le {l : List ℚ} {x : ℚ} (hx : x ∈ l) : |x| ≤ |maxByAbs l| := by
  cases l with
  | nil => exact absurd hx (List.not_mem_nil x)
  | cons y ys =>
    rcases List.mem_cons.mp hx with rfl | h
    · exact (foldl_maxabs_le ys x).1
    · exact (foldl_maxabs_le ys y).2 x h

lemma maxByAbs_abs_pos {l : List ℚ} (h : ∃ x ∈ l, x ≠ 0) : 0 < |maxByAbs l| := by
  obtain ⟨x, hx, hx0⟩ := h
  exact lt_of_lt_of_le (abs_pos.mpr hx0) (maxByAbs_abs_le hx)

lemma same_position_eq_false {r : Robot} {target : List ℚ} :
    same_position r target = false ↔ ∃ x ∈ delta target r.current_position, x ≠ 0 := by
  rw [← Bool.not_eq_true]
  simp [same_position, List.all_eq_true]

lemma mul_nonpos_iff_not_same_sign (a b : ℚ) :
    ¬((0 < a ∧ 0 < b) ∨ (a < 0 ∧ b < 0)) ↔ a * b ≤ 0 := by
  constructor
  · intro h
    rcases lt_trichotomy a 0 with ha | ha | ha
    · have hb : 0 ≤ b := by
        by_contra hb
        exact h (Or.inr ⟨ha, lt_of_not_ge hb⟩)
      exact mul_nonpos_iff.mpr (Or.inr ⟨ha.le, hb⟩)
    · simp [ha]
    · have hb : b ≤ 0 := by
        by_contra hb
        exact h (Or.inl ⟨ha, lt_of_not_ge hb⟩)
      exact mul_nonpos_iff.mpr (Or.inl ⟨ha.le, hb⟩)
  · rintro h (⟨h1, h2⟩ | ⟨h1, h2⟩) <;> nlinarith

lemma is_motion_completed_iff (r : Robot) (target : List ℚ) :
    is_motion_completed r target = true ↔
      ∀ p ∈ (target.zip r.current_position).zip r.axis_speed,
        (p.1.1 - p.1.2) * p.2 ≤ 0 := by
  unfold is_motion_completed
  rw [List.all_eq_true]
  refine forall_congr' fun p => imp_congr_right fun _ => ?_
  rw [← mul_nonpos_iff_not_same_sign]
  simp [gt_iff_lt, not_or]
  rw [or_iff_not_imp_left, or_iff_not_imp_left, not_le, not_le]

lemma zipWith_reach_target (T : ℚ) (hT : T ≠ 0) :
    ∀ (target current : List ℚ), target.length = current.length →
      List.zipWith (fun c v => c + T * v) current
        ((delta target current).map (fun x => x / T)) = target := by
  intro target
  induction target with
  | nil =>
    intro current h
    rw [List.length_nil] at h
    rw [(List.length_eq_zero.mp h.symm)]
    rfl
  | cons t ts ih =>
    intro current h
    cases current with
    | nil => simp at h
    | cons c cs =>
      have hlen : ts.length = cs.length := by
        simpa using h
      have hstep : delta (t :: ts) (c :: cs) = (t - c) :: delta ts cs := rfl
      rw [hstep, List.map_cons, List.zipWith_cons_cons, ih cs hlen]
      congr 1
      field_simp

/-- One `move_to` call that passes both validation gates on a robot not at
the target: plan (if stationary), integrate, then either snap to the
target or report the integrated state. -/
lemma move_to_eq_of_valid (r : Robot) (target : List ℚ) (speed t1 t2 : ℚ)
    (hspeed : 0 ≤ speed ∧ speed ≤ 100)
    (haxis : axis_violation (target.zip r.robot_limits) 0 = none)
    (hmove : same_position r target = false) :
    move_to r target speed t1 t2 =
      (if is_motion_completed
            { r with
              current_position := integrated_position r target speed t1
              axis_speed := planned_speeds r target speed
              last_motion_time := t2 } target then
         ⟨target, [0, 0, 0], none,
          { r with
            current_position := target
            axis_speed := [0, 0, 0]
            last_motion_time := t2 }⟩
       else
         ⟨integrated_position r target speed t1, planned_speeds r target speed, none,
          { r with
            current_position := integrated_position r target speed t1
            axis_speed := planned_speeds r target speed
            last_motion_time := t2 }⟩) := by
  unfold move_to
  rw [if_neg (not_not_intro hspeed)]
  rw [haxis]
  rw [if_neg (by rw [hmove]; exact Bool.false_ne_true)]

/-- C1: the spec requires `move_to` to reject every speed outside `(0, 100]`
(speed 0 in particular) with a descriptive error and no state change.  The
source gate is `0 <= speed <= 100`, so speed 0 passes validation (no error is
produced) and `_plan_motion` then divides by the zero speed, which in Python
raises `ZeroDivisionError` instead of returning the documented error triple. -/
theorem move_to_speed_zero_accepted :
    ((0 : ℚ) ≤ 0 ∧ (0 : ℚ) ≤ 100) ∧
    (move_to robotInit [100, 0, 0] 0 5 5).error = none ∧
    ¬ plan_motion_divisors_nonzero robotInit [100, 0, 0] 0 := by
  refine ⟨⟨le_refl 0, by norm_num⟩, ?_, fun h => h.1 rfl⟩
  norm_num [move_to, same_position, delta, robotInit, axis_violation]
  split <;> rfl

/-- C2: a `move_to` call that passes validation toward a target not yet
reached integrates the position forward by `velocity * (t1 - last update)`
(`integrated_position`), judges each axis arrived exactly when its remaining
delta has crossed zero relative to its direction of travel
(`(target - pos) * velocity ≤ 0`), and, once every axis has arrived, returns
exactly the target position with an all-zero velocity vector. -/
theorem move_to_integration_and_arrival (r r1 : Robot) (target : List ℚ)
    (speed t1 t2 : ℚ)
    (hspeed : 0 ≤ speed ∧ speed ≤ 100)
    (haxis : axis_violation (target.zip r.robot_limits) 0 = none)
    (hmove : same_position r target = false)
    (hr1 : r1 =
      { r with
        current_position := integrated_position r target speed t1
        axis_speed := planned_speeds r target speed
        last_motion_time := t2 }) :
    (move_to r target speed t1 t2).error = none ∧
    (is_motion_completed r1 target = true ↔
      ∀ p ∈ (target.zip r1.current_position).zip r1.axis_speed,
        (p.1.1 - p.1.2) * p.2 ≤ 0) ∧
    (if is_motion_completed r1 target then
       (move_to r target speed t1 t2).position = target ∧
       (move_to r target speed t1 t2).velocity = [0, 0, 0]
     else
       (move_to r target speed t1 t2).position = r1.current_position ∧
       (move_to r target speed t1 t2).velocity = r1.axis_speed) := by
  subst hr1
  rw [move_to_eq_of_valid r target speed t1 t2 hspeed haxis hmove]
  refine ⟨?_, is_motion_completed_iff _ target, ?_⟩
  · split <;> rfl
  · cases hcomp : is_motion_completed
        { r with
          current_position := integrated_position r target speed t1
          axis_speed := planned_speeds r target speed
          last_motion_time := t2 } target with
    | false => simp [hcomp]
    | true => simp [hcomp]

/-- C2 witness: a stationary robot at the origin commanded to `[10, 0, 0]`
at speed 50 with both clock readings at 1. -/
theorem move_to_integration_and_arrival_witness :
    (move_to robotInit [10, 0, 0] 50 1 1).error = none :=
  (move_to_integration_and_arrival robotInit
    { robotInit with
      current_position := integrated_position robotInit [10, 0, 0] 50 1
      axis_speed := planned_speeds robotInit [10, 0, 0] 50
      last_motion_time := 1 }
    [10, 0, 0] 50 1 1 (by norm_num) rfl
    (by simp [same_position, delta, robotInit]) rfl).1

/-- C3: on a validated first call for a target (stationary robot, target
differing from the current position), the dominant axis delta has the
largest absolute value among the per-axis deltas, the common motion
duration is `|dominant delta| / speed`, every axis's planned velocity is
its own delta divided by that duration, and integrating each axis for the
full duration lands exactly on the target (simultaneous arrival). -/
theorem plan_motion_spec (r : Robot) (target : List ℚ) (speed : ℚ)
    (hlen : target.length = r.current_position.length)
    (hpos : 0 < speed) (hle : speed ≤ 100)
    (hstat : r.axis_speed.all (fun v => decide (v = 0)) = true)
    (hmove : same_position r target = false) :
    let d := delta target r.current_position
    let dom := maxByAbs d
    let T := |dom| / speed
    (dom ∈ d ∧ ∀ x ∈ d, |x| ≤ |dom|) ∧
    planned_speeds r target speed = d.map (fun x => x / T) ∧
    0 < T ∧
    List.zipWith (fun c v => c + T * v) r.current_position
      (planned_speeds r target speed) = target := by
  intro d dom T
  have hne : ∃ x ∈ d, x ≠ 0 := same_position_eq_false.mp hmove
  have hdnil : d ≠ [] := by
    obtain ⟨x, hx, _⟩ := hne
    exact List.ne_nil_of_mem hx
  have habs : 0 < |dom| := maxByAbs_abs_pos hne
  have hT : 0 < T := div_pos habs hpos
  have hplan : planned_speeds r target speed = d.map (fun x => x / T) := by
    unfold planned_speeds
    rw [if_pos hstat]
    rfl
  refine ⟨⟨maxByAbs_mem hdnil, fun x hx => maxByAbs_abs_le hx⟩, hplan, hT, ?_⟩
  rw [hplan]
  exact zipWith_reach_target T (ne_of_gt hT) target r.current_position hlen

/-- C3 witness: a stationary robot at the origin commanded to `[30, 40, 0]`
at speed 50; the dominant delta is 40, so the duration is `40/50` and the
planned velocities `[75/2, 50, 0]` reach the target simultaneously. -/
theorem plan_motion_spec_witness :
    List.zipWith
      (fun c v => c + (|maxByAbs (delta [30, 40, 0] robotInit.current_position)| / 50) * v)
      robotInit.current_position (planned_speeds robotInit [30, 40, 0] 50) = [30, 40, 0] :=
  (plan_motion_spec robotInit [30, 40, 0] 50 rfl (by norm_num) (by norm_num)
    rfl (by simp [same_position, delta, robotInit])).2.2.2

/-- C9 counterexample: the claim says a `move_to` issued mid-motion
(velocity nonzero) toward a different target raises a usage error rather
than proceeding.  On a robot moving with velocity `[1, 0, 0]`, a call
toward `[500, 400, 0]` returns no error at all and the motion proceeds
(position integrates to `[1, 0, 0]` with the stale velocity). -/
theorem move_to_midmotion_counterexample :
    (({ robotInit with axis_speed := [1, 0, 0] } : Robot).axis_speed.all
        (fun v => decide (v = 0)) = false) ∧
    ({ robotInit with axis_speed := [1, 0, 0] } : Robot).current_position ≠ [500, 400, 0] ∧
    (move_to { robotInit with axis_speed := [1, 0, 0] } [500, 400, 0] 90 1 1).error = none ∧
    (move_to { robotInit with axis_speed := [1, 0, 0] } [500, 400, 0] 90 1 1).position =
      [1, 0, 0] := by
  refine ⟨rfl, by norm_num [robotInit], ?_, ?_⟩ <;>
  norm_num [move_to, same_position, delta, robotInit, axis_violation, integrated_position,
    planned_speeds, integration_start, is_motion_completed, plan_motion, maxByAbs]

/-- C9 amended: a validated `move_to` issued while the velocity vector is
nonzero toward a target differing from the current position is not
rejected: the engine returns no error, performs no re-planning (the
velocities in force are the previously stored ones), and simply continues
the integration step. -/
theorem move_to_midmotion_no_error (r : Robot) (target : List ℚ) (speed t1 t2 : ℚ)
    (hspeed : 0 ≤ speed ∧ speed ≤ 100)
    (haxis : axis_violation (target.zip r.robot_limits) 0 = none)
    (hmove : same_position r target = false)
    (hbusy : r.axis_speed.all (fun v => decide (v = 0)) = false) :
    (move_to r target speed t1 t2).error = none ∧
    planned_speeds r target speed = r.axis_speed := by
  have hps : planned_speeds r target speed = r.axis_speed := by
    unfold planned_speeds
    rw [hbusy]
    exact if_neg Bool.false_ne_true
  refine ⟨?_, hps⟩
  rw [move_to_eq_of_valid r target speed t1 t2 hspeed haxis hmove]
  split <;> rfl

/-- C9 amended witness: mid-motion robot with velocity `[1, 0, 0]`
retargeted to `[20, 30, 0]` at speed 80. -/
theorem move_to_midmotion_no_error_witness :
    (move_to { robotInit with axis_speed := [1, 0, 0] } [20, 30, 0] 80 2 2).error = none ∧
    planned_speeds { robotInit with axis_speed := [1, 0, 0] } [20, 30, 0] 80 =
      ({ robotInit with axis_speed := [1, 0, 0] } : Robot).axis_speed :=
  move_to_midmotion_no_error { robotInit with axis_speed := [1, 0, 0] } [20, 30, 0] 80 2 2
    (by norm_num) rfl (by simp [same_position, delta, robotInit]) rfl

/-- C10 counterexample: the claim quantifies over calls passing the source's
speed-bound check (`0 <= speed <= 100`) and axis-limit check with a target
differing from the current position, and asserts the division by `speed` in
`_plan_motion` never sees a zero divisor.  Speed 0 passes both checks on a
fresh robot targeted at `[0, 50, 0]`, yet the divisor is zero. -/
theorem plan_motion_zero_divisor_counterexample :
    ((0 : ℚ) ≤ 0 ∧ (0 : ℚ) ≤ 100) ∧
    axis_violation ([0, 50, 0].zip robotInit.robot_limits) 0 = none ∧
    same_position robotInit [0, 50, 0] = false ∧
    ¬ plan_motion_divisors_nonzero robotInit [0, 50, 0] 0 := by
  refine ⟨⟨le_refl 0, by norm_num⟩, rfl, ?_, fun h => h.1 rfl⟩
  simp [same_position, delta, robotInit]

/-- C10 amended: for every `move_to` call whose speed is strictly positive
(and within the bound) and whose target differs from the current position,
every divisor evaluated inside `_plan_motion` is nonzero: `speed ≠ 0`, and
the motion time `|dominant delta| / speed` is nonzero because some delta is
nonzero. -/
theorem plan_motion_divisors_nonzero_of_pos_speed (r : Robot) (target : List ℚ)
    (speed : ℚ) (hpos : 0 < speed) (hle : speed ≤ 100)
    (hmove : same_position r target = false) :
    plan_motion_divisors_nonzero r target speed := by
  have hne : ∃ x ∈ delta target r.current_position, x ≠ 0 :=
    same_position_eq_false.mp hmove
  have habs : 0 < |maxByAbs (delta target r.current_position)| := maxByAbs_abs_pos hne
  exact ⟨ne_of_gt hpos, ne_of_gt (div_pos habs hpos)⟩

/-- C10 amended witness: fresh robot, target `[0, 50, 0]`, speed 90. -/
theorem plan_motion_divisors_nonzero_witness :
    plan_motion_divisors_nonzero robotInit [0, 50, 0] 90 :=
  plan_motion_divisors_nonzero_of_pos_speed robotInit [0, 50, 0] 90
    (by norm_num) (by norm_num) (by simp [same_position, delta, robotInit])

end RobotSim

namespace Palletizer

/-- C6: the `TRANSITIONS` table drives the trigger sequence `start`,
`finished_homing`, `finished_picking`, `finished_placing` through
IDLE→HOMING→PICKING→PLACING→PICKING, and the orchestrated place-completion
step (which fires `cycle_complete` only once the incremented box index has
reached `rows*cols`, else `finished_placing`) reaches IDLE from PLACING
exactly when the box index has reached `rows*cols`, and PICKING
otherwise. -/
theorem palletizer_cycle_and_completion :
    (fire PalletizerState.IDLE "start" = some PalletizerState.HOMING ∧
     fire PalletizerState.HOMING "finished_homing" = some PalletizerState.PICKING ∧
     fire PalletizerState.PICKING "finished_picking" = some PalletizerState.PLACING ∧
     fire PalletizerState.PLACING "finished_placing" = some PalletizerState.PICKING) ∧
    (∀ ctx : PalletizerContext,
      (fire PalletizerState.PLACING (place_complete_step ctx).1 = some PalletizerState.IDLE ↔
        (place_complete_step ctx).2.current_box_index ≥ ctx.rows * ctx.cols) ∧
      (if (place_complete_step ctx).2.current_box_index ≥ ctx.rows * ctx.cols then
         fire PalletizerState.PLACING (place_complete_step ctx).1 = some PalletizerState.IDLE
       else
         fire PalletizerState.PLACING (place_complete_step ctx).1 =
           some PalletizerState.PICKING)) := by
  refine ⟨⟨rfl, rfl, rfl, rfl⟩, fun ctx => ?_⟩
  have hsnd : (place_complete_step ctx).2.current_box_index = ctx.current_box_index + 1 :=
    rfl
  by_cases hge : ctx.current_box_index + 1 ≥ ctx.rows * ctx.cols
  · have h1 : (place_complete_step ctx).1 = "cycle_complete" := by
      simp [place_complete_step, hge]
    rw [h1, hsnd]
    refine ⟨?_, ?_⟩
    · simp [hge]
      rfl
    · rw [if_pos hge]
      rfl
  · have h1 : (place_complete_step ctx).1 = "finished_placing" := by
      simp [place_complete_step, hge]
    rw [h1, hsnd]
    refine ⟨?_, ?_⟩
    · have hfire : fire PalletizerState.PLACING "finished_placing" =
          some PalletizerState.PICKING := rfl
      rw [hfire]
      simp [hge]
    · rw [if_neg hge]
      rfl

/-- C7: `configure` called while the machine is in any state other than
IDLE returns `False` and leaves the whole palletizer context (every field)
unchanged. -/
theorem configure_rejected_outside_idle (s : PalletizerState) (ctx : PalletizerContext)
    (rows cols : ℤ) (bs po : ℚ × ℚ × ℚ) (h : s ≠ PalletizerState.IDLE) :
    configure s ctx rows cols bs po = (false, ctx) := by
  unfold configure
  rw [if_pos h]

/-- C7 witness: `configure` in HOMING on the initial context. -/
theorem configure_rejected_outside_idle_witness :
    configure PalletizerState.HOMING ctxInit 3 3 (1, 1, 1) (0, 0, 0) = (false, ctxInit) :=
  configure_rejected_outside_idle PalletizerState.HOMING ctxInit 3 3 (1, 1, 1) (0, 0, 0)
    (by decide)

/-- C8 counterexample: the claim says a successful `configure` leaves
`rows*cols` precomputed place positions in the context.  Configuring a
2×2 grid in IDLE succeeds, yet `place_positions` is left empty (the source
assigns `[]` and never calls the grid planner). -/
theorem configure_no_precompute_counterexample :
    (configure PalletizerState.IDLE ctxInit 2 2 (100, 100, 50) (400, -200, 100)).1 = true ∧
    ((configure PalletizerState.IDLE ctxInit 2 2 (100, 100, 50)
        (400, -200, 100)).2.place_positions).length ≠ 2 * 2 := by
  exact ⟨rfl, by decide⟩

/-- C8 amended: a successful `configure` (in IDLE) populates the grid spec
from its arguments, sets `total_boxes` to `rows*cols`, resets the box
index to 0, and resets `place_positions` to the empty list; the
place-position sequence is not precomputed by `configure`. -/
theorem configure_in_idle_spec (ctx : PalletizerContext) (rows cols : ℤ)
    (bs po : ℚ × ℚ × ℚ) :
    configure PalletizerState.IDLE ctx rows cols bs po =
      (true,
       { ctx with
         rows := rows
         cols := cols
         box_size_mm := bs
         pallet_origin_mm := po
         total_boxes := rows * cols
         current_box_index := 0
         place_positions := [] }) := by
  unfold configure
  rw [if_neg (not_not_intro rfl)]

end Palletizer

namespace Grid

/-- C5: the grid planner on a 2×2 grid of 100×100×50 boxes at origin
(400, −200, 100) with spacing 10 yields exactly the four positions
(400,−200,100), (510,−200,100), (400,−90,100), (510,−90,100) in row-major
order, and in general entry `row*cols + col` equals
`origin + (col*(box_width+spacing), row*(box_depth+spacing), 0)`. -/
theorem calculate_place_positions_spec (rows cols row col : ℕ) (w d h ox oy oz s : ℚ)
    (hrow : row < rows) (hcol : col < cols) :
    calculate_place_positions 2 2 (100, 100, 50) (400, -200, 100) 10 =
      [(400, -200, 100), (510, -200, 100), (400, -90, 100), (510, -90, 100)] ∧
    (calculate_place_positions rows cols (w, d, h) (ox, oy, oz) s).get? (row * cols + col) =
      some (ox + col * (w + s), oy + row * (d + s), oz) := by
  constructor
  · have h4 : List.range (2 * 2) = [0, 1, 2, 3] := rfl
    unfold calculate_place_positions
    rw [h4]
    norm_num
  · have hcols : 0 < cols := lt_of_le_of_lt (Nat.zero_le col) hcol
    have hk : row * cols + col < rows * cols := by
      calc row * cols + col < row * cols + cols := Nat.add_lt_add_left hcol _
        _ = (row + 1) * cols := by ring
        _ ≤ rows * cols := Nat.mul_le_mul_right cols (Nat.succ_le_of_lt hrow)
    have hmod : (row * cols + col) % cols = col := by
      rw [Nat.mul_comm, Nat.mul_add_mod, Nat.mod_eq_of_lt hcol]
    have hdiv : (row * cols + col) / cols = row := by
      rw [Nat.add_comm, Nat.mul_comm row cols, Nat.add_mul_div_left col row hcols,
        Nat.div_eq_of_lt hcol, Nat.zero_add]
    unfold calculate_place_positions
    rw [List.get?_map, List.get?_range hk]
    simp only [Option.map_some', hmod, hdiv]

/-- C5 witness: the 3×4 grid of 150×150×75 boxes at origin
(500, −300, 150) with spacing 10, entry (row 1, col 2). -/
theorem calculate_place_positions_spec_witness :
    (calculate_place_positions 3 4 (150, 150, 75) (500, -300, 150) 10).get? (1 * 4 + 2) =
      some ((500 : ℚ) + ((2 : ℕ) : ℚ) * (150 + 10),
        (-300 : ℚ) + ((1 : ℕ) : ℚ) * (150 + 10), (150 : ℚ)) :=
  (calculate_place_positions_spec 3 4 1 2 150 150 75 500 (-300) 150 10
    (by decide) (by decide)).2

end Grid

namespace Transforms

/-- C4: for every 3-D point `p`, transforming camera frame to robot frame
and back returns the original point: `robot_to_camera (camera_to_robot p)
= p`, for any orthonormal deployment rotation `R` (and any translation
`t`).  The embedding works in exact rational arithmetic, so the spec's
"within floating-point tolerance" becomes exact equality. -/
theorem camera_robot_roundtrip (R : Matrix (Fin 3) (Fin 3) ℚ) (t p : Fin 3 → ℚ)
    (hR : R.transpose * R = 1) :
    robot_to_camera R t (camera_to_robot R t p) = p := by
  unfold camera_to_robot robot_to_camera
  rw [add_sub_cancel_right, Matrix.mulVec_mulVec, hR, Matrix.one_mulVec]

/-- A concrete orthonormal rotation: 90° about the z axis. -/
def Rz90 : Matrix (Fin 3) (Fin 3) ℚ := !![0, -1, 0; 1, 0, 0; 0, 0, 1]

lemma Rz90_orthonormal : Rz90.transpose * Rz90 = 1 := by
  ext i j
  fin_cases i <;> fin_cases j <;>
    simp [Rz90, Matrix.mul_apply, Fin.sum_univ_three, Matrix.one_apply,
      Matrix.transpose_apply, Matrix.vecHead, Matrix.vecTail]

/-- C4 witness: the 90°-about-z rotation with translation (10, 20, 30)
round-trips the point (1, 2, 3). -/
theorem camera_robot_roundtrip_witness :
    robot_to_camera Rz90 ![10, 20, 30] (camera_to_robot Rz90 ![10, 20, 30] ![1, 2, 3]) =
      ![1, 2, 3] :=
  camera_robot_roundtrip Rz90 ![10, 20, 30] ![1, 2, 3] Rz90_orthonormal

end Transforms
